import Mathlib

/-!
Verification of the dependency-change-detection and categorization engine of
react-smart-effect, shallowly embedded from `src/utils.ts`, the hook body in
`src/useSmartEffect.ts` and the devtools report store in `src/devtools.ts`.

JavaScript values appearing in dependency arrays are modelled by the inductive
type `JSVal`.  Numbers are modelled as integers (no NaN / -0 subtleties are
relevant to the verified claims), structured values and functions carry a
reference identifier `ref` standing for JavaScript object identity.
-/

inductive JSVal where
  | vNum (n : Int)
  | vStr (s : String)
  | vBool (b : Bool)
  | vUndef
  | vNull
  | vObj (ref : Nat) (fields : List (String × JSVal))
  | vArr (ref : Nat) (elems : List JSVal)
  | vFunc (ref : Nat) (name : String) (src : String)
  | vSym (ref : Nat)
  | vBigInt (n : Int)
deriving Repr

/-- Embedding of the JavaScript `typeof` operator on `JSVal`. -/
def typeof : JSVal → String
  | .vNum _ => "number"
  | .vStr _ => "string"
  | .vBool _ => "boolean"
  | .vUndef => "undefined"
  | .vNull => "object"
  | .vObj _ _ => "object"
  | .vArr _ _ => "object"
  | .vFunc _ _ _ => "function"
  | .vSym _ => "symbol"
  | .vBigInt _ => "bigint"

/-- Embedding of `Object.is`: value equality for primitives, reference
equality for objects, arrays, functions and symbols. -/
def jsIs : JSVal → JSVal → Bool
  | .vNum a, .vNum b => a == b
  | .vStr a, .vStr b => a == b
  | .vBool a, .vBool b => a == b
  | .vUndef, .vUndef => true
  | .vNull, .vNull => true
  | .vObj r _, .vObj r' _ => r == r'
  | .vArr r _, .vArr r' _ => r == r'
  | .vFunc r _ _, .vFunc r' _ _ => r == r'
  | .vSym r, .vSym r' => r == r'
  | .vBigInt a, .vBigInt b => a == b
  | _, _ => false

/-- Test for the `null` value (used by `prev !== null` in `deepCompareDeps`
and by the `null` case of `analyzeDeps`). -/
def isNullV : JSVal → Bool
  | .vNull => true
  | _ => false

/-- Test for `Array.isArray`. -/
def isArrayV : JSVal → Bool
  | .vArr _ _ => true
  | _ => false

/-- Field lookup in an object literal, first binding wins (JavaScript object
keys are unique, so on representable objects this is ordinary lookup). -/
def lookupField (k : String) : List (String × JSVal) → Option JSVal
  | [] => none
  | (k', v) :: rest => if k' == k then some v else lookupField k rest

mutual

/-- Embedding of `lodash.isequal`: recursive structural equality.  Primitives
compare by value, arrays element-wise, plain objects by key lookup, and
functions and symbols by reference (lodash falls back to strict equality for
them). -/
def isEqual : JSVal → JSVal → Bool
  | .vNum a, .vNum b => a == b
  | .vStr a, .vStr b => a == b
  | .vBool a, .vBool b => a == b
  | .vUndef, .vUndef => true
  | .vNull, .vNull => true
  | .vObj _ fs, .vObj _ gs => fs.length == gs.length && fieldsLookupEq fs gs
  | .vArr _ xs, .vArr _ ys => isEqualList xs ys
  | .vFunc r _ _, .vFunc r' _ _ => r == r'
  | .vSym r, .vSym r' => r == r'
  | .vBigInt a, .vBigInt b => a == b
  | _, _ => false

/-- Element-wise structural equality of two arrays. -/
def isEqualList : List JSVal → List JSVal → Bool
  | [], [] => true
  | x :: xs, y :: ys => isEqual x y && isEqualList xs ys
  | _, _ => false

/-- Every field of the first object is present in the second with a
structurally equal value. -/
def fieldsLookupEq : List (String × JSVal) → List (String × JSVal) → Bool
  | [], _ => true
  | (k, v) :: fs, gs =>
    (match lookupField k gs with
     | some w => isEqual v w
     | none => false) && fieldsLookupEq fs gs

end

/-- Embedding of the element comparison inside `deepCompareDeps.every`:
`isEqual` for non-null objects, `Object.is` otherwise. -/
def depEq (prev next : JSVal) : Bool :=
  if typeof prev == "object" && !(isNullV prev) then isEqual prev next
  else jsIs prev next

/-- Embedding of `deepCompareDeps` from `src/utils.ts`.  An absent dependency
list is `none`; `if (!prevDeps || !nextDeps) return prevDeps === nextDeps`
compares only when at least one side is absent, so it reduces to presence
matching there. -/
def deepCompareDeps : Option (List JSVal) → Option (List JSVal) → Bool
  | none, none => true
  | none, some _ => false
  | some _, none => false
  | some prevDeps, some nextDeps =>
    if prevDeps.length ≠ nextDeps.length then false
    else (prevDeps.zip nextDeps).all fun pr => depEq pr.1 pr.2

/-- Comparison strategy selected by the caller configuration of
`useSmartEffect`: the default identity comparison, the opt-in `deepCompare`
mode, or a caller-supplied `compareFunction` predicate. -/
inductive Strategy where
  | identity
  | deep
  | custom (f : List JSVal → List JSVal → Bool)

/-- Embedding of the `shouldRun` decision of `useSmartEffect` past the first
render, for a present dependency list `deps` (the change detector of the
spec).  Mirrors the source order: `compareFunction` is consulted first (on
`prevDeps || []`), then `deepCompare`, then absence / length / `Object.is`
checks. -/
def detectChange (prevDeps : Option (List JSVal)) (deps : List JSVal) :
    Strategy → Bool
  | .custom f => !(f (prevDeps.getD []) deps)
  | .deep => !(deepCompareDeps prevDeps (some deps))
  | .identity =>
    match prevDeps with
    | none => true
    | some p =>
      if p.length ≠ deps.length then true
      else !((deps.zip p).all fun pr => jsIs pr.1 pr.2)

/-- Name of a function value (`dep.name`); the empty string models a function
with no resolvable name. -/
def fnName : JSVal → String
  | .vFunc _ n _ => n
  | _ => ""

/-- Source text of a function value (`dep.toString()`). -/
def fnToString : JSVal → String
  | .vFunc _ _ src => src
  | _ => ""

/-- Character-list prefix test, used to implement substring search and the
anchored regular expression of `analyzeDeps`. -/
def listStartsWith : List Char → List Char → Bool
  | [], _ => true
  | _ :: _, [] => false
  | a :: as, b :: bs => a == b && listStartsWith as bs

/-- Substring containment on character lists. -/
def listContainsSub (pat : List Char) : List Char → Bool
  | [] => listStartsWith pat []
  | c :: rest => listStartsWith pat (c :: rest) || listContainsSub pat rest

/-- Embedding of `String.prototype.includes`. -/
def strIncludes (s pat : String) : Bool :=
  listContainsSub pat.toList s.toList

/-- Embedding of the test `/^function\s*\(/.test(fnString)`: the text starts
with the word `function`, then optional whitespace, then an opening
parenthesis. -/
def matchesNamelessFn (s : String) : Bool :=
  let cs := s.toList
  if listStartsWith "function".toList cs then
    match (cs.drop 8).dropWhile Char.isWhitespace with
    | '(' :: _ => true
    | _ => false
  else false

/-- Embedding of `String.prototype.trim`: strip leading and trailing
whitespace. -/
def strTrim (s : String) : String :=
  String.mk (((s.toList.dropWhile Char.isWhitespace).reverse.dropWhile
    Char.isWhitespace).reverse)

/-- Embedding of the `isAnonymous` test in the `function` case of
`analyzeDeps`: arrow source, nameless function expression, empty name, or the
literal name `anonymous`. -/
def isAnonymousFn (dep : JSVal) : Bool :=
  let fnString := strTrim (fnToString dep)
  strIncludes fnString "=>" || matchesNamelessFn fnString ||
    fnName dep == "" || fnName dep == "anonymous"

/-- Embedding of the `DependencyAnalysis` record of `src/types.ts`. -/
structure DependencyAnalysis where
  primitives : List JSVal
  objects : List JSVal
  functions : List JSVal
  potentiallyMissing : List String
  redundant : List JSVal
deriving Repr

/-- The freshly initialised analysis record at the top of `analyzeDeps`. -/
def emptyAnalysis : DependencyAnalysis := ⟨[], [], [], [], []⟩

/-- Embedding of one iteration of the `deps.forEach` switch in `analyzeDeps`:
primitive typeofs push to `primitives`; functions push to `functions` plus a
named/anonymous advisory; objects split into `null` (primitive), arrays and
plain objects (both `objects` plus an advisory); `symbol` and `bigint` match
no case and leave the record unchanged. -/
def analyzeStep (index : Nat) (dep : JSVal) (analysis : DependencyAnalysis) :
    DependencyAnalysis :=
  let type := typeof dep
  if type == "string" || type == "number" || type == "boolean" ||
      type == "undefined" then
    { analysis with primitives := analysis.primitives ++ [dep] }
  else if type == "function" then
    { analysis with
        functions := analysis.functions ++ [dep],
        potentiallyMissing := analysis.potentiallyMissing ++
          [if isAnonymousFn dep then s!"Anonymous function at index {index}"
           else s!"Named function at index {index}"] }
  else if type == "object" then
    if isNullV dep then
      { analysis with primitives := analysis.primitives ++ [dep] }
    else if isArrayV dep then
      { analysis with
          objects := analysis.objects ++ [dep],
          potentiallyMissing := analysis.potentiallyMissing ++
            [s!"Array at index {index}"] }
    else
      { analysis with
          objects := analysis.objects ++ [dep],
          potentiallyMissing := analysis.potentiallyMissing ++
            [s!"Object at index {index}"] }
  else analysis

/-- The `forEach` loop of `analyzeDeps`, carrying the running index. -/
def analyzeFrom (index : Nat) : List JSVal → DependencyAnalysis → DependencyAnalysis
  | [], analysis => analysis
  | dep :: rest, analysis => analyzeFrom (index + 1) rest (analyzeStep index dep analysis)

/-- Embedding of `analyzeDeps` from `src/utils.ts`. -/
def analyzeDeps (deps : List JSVal) : DependencyAnalysis :=
  analyzeFrom 0 deps emptyAnalysis

example : detectChange (some []) [JSVal.vNum 1] (.custom fun _ _ => true) = false := rfl
example : detectChange none [JSVal.vNum 1] .identity = true := rfl
example : detectChange none [JSVal.vNum 1] .deep = true := rfl
example : detectChange (some []) [JSVal.vNum 1] .deep = true := rfl
example : isEqual (.vObj 1 [("a", .vNum 1), ("b", .vNum 2)])
    (.vObj 2 [("a", .vNum 1), ("b", .vNum 2)]) = true := by decide
example : detectChange (some [.vObj 1 [("a", .vNum 1), ("b", .vNum 2)]])
    [.vObj 2 [("a", .vNum 1), ("b", .vNum 2)]] .deep = false := by decide
example : detectChange (some [.vObj 1 [("a", .vNum 1), ("b", .vNum 2)]])
    [.vObj 2 [("a", .vNum 1), ("b", .vNum 3)]] .deep = true := by decide

example : (analyzeDeps [.vNum 1, .vStr "s", .vBool true, .vNull, .vUndef]).primitives
    = [.vNum 1, .vStr "s", .vBool true, .vNull, .vUndef] := rfl
example : (analyzeDeps [.vNum 1, .vStr "s", .vBool true, .vNull, .vUndef]).potentiallyMissing = [] := rfl
example : (analyzeDeps [.vObj 1 [("a", .vNum 1)], .vArr 2 [.vNum 1, .vNum 2, .vNum 3]]).potentiallyMissing
    = ["Object at index 0", "Array at index 1"] := rfl
example : (analyzeDeps [.vFunc 0 "namedFunction" "function namedFunction() \x7b\x7d",
    .vFunc 1 "anonymousFn" "() => \x7b\x7d"]).potentiallyMissing
    = ["Named function at index 0", "Anonymous function at index 1"] := by decide

/-- The element comparison of `deepCompareDeps` agrees with full structural
equality on every pair of values: for non-null objects it is `isEqual` by
definition, and on all other shapes `Object.is` and `isEqual` coincide. -/
theorem depEq_eq_isEqual (a b : JSVal) : depEq a b = isEqual a b := by
  cases a <;> cases b <;> simp [depEq, typeof, isNullV, jsIs, isEqual]

/-- C1 counterexample: a caller-supplied predicate that always answers
"unchanged" is consulted before the length check, so sequences of lengths 0
and 1 yield changed == false under the custom strategy. -/
theorem spec_C1_cex :
    ([] : List JSVal).length ≠ [JSVal.vNum 1].length ∧
    detectChange (some []) [JSVal.vNum 1] (.custom fun _ _ => true) = false :=
  ⟨by decide, rfl⟩

/-- C1 (amended): under the identity and deep strategies a length mismatch
always yields changed == true; under the custom strategy the predicate is
applied to both sequences and its verdict is inverted, bypassing the length
check. -/
theorem spec_C1 (P N : List JSVal) (h : P.length ≠ N.length) :
    detectChange (some P) N .identity = true ∧
    detectChange (some P) N .deep = true ∧
    ∀ f, detectChange (some P) N (.custom f) = !(f P N) := by
  refine ⟨?_, ?_, fun _ => rfl⟩
  · simp [detectChange, h]
  · simp [detectChange, deepCompareDeps, h]

/-- C1 witness: the amended claim instantiated at the concrete length
mismatch 0 versus 1. -/
theorem spec_C1_witness :
    detectChange (some ([] : List JSVal)) [JSVal.vNum 1] .identity = true ∧
    detectChange (some ([] : List JSVal)) [JSVal.vNum 1] .deep = true :=
  ⟨(spec_C1 [] [JSVal.vNum 1] (by decide)).1,
   (spec_C1 [] [JSVal.vNum 1] (by decide)).2.1⟩

/-- C2 counterexample: with an absent previous sequence, a caller-supplied
predicate that always answers "unchanged" yields changed == false, because
`compareFunction` is consulted (on `prevDeps || []`) before the first-run
fallback. -/
theorem spec_C2_cex :
    detectChange none [JSVal.vNum 1] (.custom fun _ _ => true) = false := rfl

/-- C2 (amended): when the previous sequence is absent, the identity and deep
strategies report changed == true; the custom strategy applies the predicate
to the empty sequence and the next sequence and uses its inverted verdict. -/
theorem spec_C2 (N : List JSVal) :
    detectChange none N .identity = true ∧
    detectChange none N .deep = true ∧
    ∀ f, detectChange none N (.custom f) = !(f [] N) :=
  ⟨rfl, rfl, fun _ => rfl⟩

/-- C3: under the deep strategy, for equal-length sequences the detector
reports changed == false exactly when the sequences are element-wise
structurally equal. -/
theorem spec_C3 (P N : List JSVal) (h : P.length = N.length) :
    detectChange (some P) N .deep = false ↔
      ((P.zip N).all fun pr => isEqual pr.1 pr.2) = true := by
  simp [detectChange, deepCompareDeps, h, depEq_eq_isEqual]

/-- C3 witness: `[{a:1,b:2}]` against a structurally equal fresh `[{a:1,b:2}]`
is reported unchanged by the deep strategy. -/
theorem spec_C3_witness :
    detectChange (some [JSVal.vObj 1 [("a", JSVal.vNum 1), ("b", JSVal.vNum 2)]])
      [JSVal.vObj 2 [("a", JSVal.vNum 1), ("b", JSVal.vNum 2)]] .deep = false :=
  (spec_C3 [JSVal.vObj 1 [("a", JSVal.vNum 1), ("b", JSVal.vNum 2)]]
    [JSVal.vObj 2 [("a", JSVal.vNum 1), ("b", JSVal.vNum 2)]] (by decide)).mpr
    (by decide)

/-- C6: under the identity strategy, a next sequence of the same length whose
elements are pairwise `Object.is`-identical to the previous one is reported
unchanged. -/
theorem spec_C6 (P N : List JSVal) (hlen : P.length = N.length)
    (hid : ((N.zip P).all fun pr => jsIs pr.1 pr.2) = true) :
    detectChange (some P) N .identity = false := by
  simp [detectChange, hlen, hid]

/-- C6 witness: a sequence of a number, a string and an object compared
against a copy sharing the object reference is reported unchanged. -/
theorem spec_C6_witness :
    detectChange
      (some [JSVal.vNum 1, JSVal.vStr "a", JSVal.vObj 7 [("x", JSVal.vNum 1)]])
      [JSVal.vNum 1, JSVal.vStr "a", JSVal.vObj 7 [("x", JSVal.vNum 1)]]
      .identity = false :=
  spec_C6 [JSVal.vNum 1, JSVal.vStr "a", JSVal.vObj 7 [("x", JSVal.vNum 1)]]
    [JSVal.vNum 1, JSVal.vStr "a", JSVal.vObj 7 [("x", JSVal.vNum 1)]]
    (by decide) (by decide)

/-- C7: the comparison function and the categorizer are deterministic pure
functions; two runs on equal inputs return equal outputs, and no state beyond
the explicitly passed arguments appears in their signatures. -/
theorem spec_C7 (p p' n n' : Option (List JSVal)) (d d' : List JSVal)
    (hp : p = p') (hn : n = n') (hd : d = d') :
    deepCompareDeps p n = deepCompareDeps p' n' ∧ analyzeDeps d = analyzeDeps d' := by
  subst hp; subst hn; subst hd; exact ⟨rfl, rfl⟩

/-- C7 witness: determinism instantiated at a concrete singleton input. -/
theorem spec_C7_witness :
    deepCompareDeps (some [JSVal.vNum 1]) (some [JSVal.vNum 1]) =
      deepCompareDeps (some [JSVal.vNum 1]) (some [JSVal.vNum 1]) ∧
    analyzeDeps [JSVal.vNum 1] = analyzeDeps [JSVal.vNum 1] :=
  spec_C7 (some [JSVal.vNum 1]) (some [JSVal.vNum 1]) (some [JSVal.vNum 1])
    (some [JSVal.vNum 1]) [JSVal.vNum 1] [JSVal.vNum 1] rfl rfl rfl

/-- C9: the detector and the categorizer are total functions of their inputs,
with the defined fallbacks on absent and empty sequences. -/
theorem spec_C9 :
    (∀ p n, ∃ b, deepCompareDeps p n = b) ∧
    (∀ p deps strat, ∃ b, detectChange p deps strat = b) ∧
    (∀ deps, ∃ a, analyzeDeps deps = a) ∧
    deepCompareDeps none none = true ∧
    deepCompareDeps none (some []) = false ∧
    detectChange none [] .identity = true ∧
    detectChange (some []) [] .identity = false ∧
    (analyzeDeps []).primitives = [] ∧ (analyzeDeps []).objects = [] ∧
    (analyzeDeps []).functions = [] ∧ (analyzeDeps []).potentiallyMissing = [] :=
  ⟨fun p n => ⟨_, rfl⟩, fun p deps strat => ⟨_, rfl⟩, fun deps => ⟨_, rfl⟩,
   rfl, rfl, rfl, by decide, rfl, rfl, rfl, rfl⟩

/-- Values routed to the `primitives` bucket by `analyzeDeps`: the four
primitive typeofs plus `null`. -/
def goesPrimitive (d : JSVal) : Bool :=
  typeof d == "string" || typeof d == "number" || typeof d == "boolean" ||
    typeof d == "undefined" || isNullV d

/-- Values routed to the `objects` bucket by `analyzeDeps`: non-null values
of typeof `object`, that is arrays and plain objects. -/
def goesStructured (d : JSVal) : Bool :=
  typeof d == "object" && !(isNullV d)

/-- Values routed to the `functions` bucket by `analyzeDeps`. -/
def isFuncV (d : JSVal) : Bool :=
  typeof d == "function"

/-- The advisory string `analyzeDeps` emits for one element, if any:
named/anonymous for functions, `Array at index i` for arrays, `Object at
index i` for other non-null objects, nothing otherwise. -/
def advisoryOf (index : Nat) (d : JSVal) : Option String :=
  if isFuncV d then
    some (if isAnonymousFn d then s!"Anonymous function at index {index}"
          else s!"Named function at index {index}")
  else if goesStructured d then
    (if isArrayV d then some s!"Array at index {index}"
     else some s!"Object at index {index}")
  else none

/-- The advisory list produced by one pass of `analyzeDeps` starting at a
given index. -/
def advisList (index : Nat) : List JSVal → List String
  | [] => []
  | d :: rest => (advisoryOf index d).toList ++ advisList (index + 1) rest

/-- One step of the `analyzeDeps` loop appends to each bucket exactly the
element filtered by its routing predicate, and to the advisory list the
advisory of the element. -/
theorem analyzeStep_eq (index : Nat) (dep : JSVal) (a : DependencyAnalysis) :
    analyzeStep index dep a =
      { a with
          primitives := a.primitives ++ (if goesPrimitive dep then [dep] else []),
          objects := a.objects ++ (if goesStructured dep then [dep] else []),
          functions := a.functions ++ (if isFuncV dep then [dep] else []),
          potentiallyMissing := a.potentiallyMissing ++ (advisoryOf index dep).toList } := by
  cases dep <;>
    simp [analyzeStep, typeof, goesPrimitive, goesStructured, isFuncV,
      isNullV, isArrayV, advisoryOf]

/-- The `analyzeDeps` loop is a homomorphism: the final record is the initial
record with each bucket extended by the corresponding filter of the remaining
input, and the advisory list extended by the advisories from the current
index on. -/
theorem analyzeFrom_eq (l : List JSVal) :
    ∀ (index : Nat) (a : DependencyAnalysis),
    analyzeFrom index l a =
      { primitives := a.primitives ++ l.filter goesPrimitive,
        objects := a.objects ++ l.filter goesStructured,
        functions := a.functions ++ l.filter isFuncV,
        potentiallyMissing := a.potentiallyMissing ++ advisList index l,
        redundant := a.redundant } := by
  induction l with
  | nil => intro index a; simp [analyzeFrom, advisList]
  | cons d rest ih =>
    intro index a
    rw [analyzeFrom, analyzeStep_eq, ih]
    simp only [advisList, List.filter_cons, List.append_assoc]
    refine DependencyAnalysis.mk.injEq .. ▸ ?_
    constructor
    · split <;> simp
    constructor
    · split <;> simp
    constructor
    · split <;> simp
    constructor
    · simp
    · rfl

/-- The buckets of `analyzeDeps` are the order-preserving filters of the
input by the three routing predicates, and the advisory list is the per-index
advisory sequence. -/
theorem analyzeDeps_eq (deps : List JSVal) :
    (analyzeDeps deps).primitives = deps.filter goesPrimitive ∧
    (analyzeDeps deps).objects = deps.filter goesStructured ∧
    (analyzeDeps deps).functions = deps.filter isFuncV ∧
    (analyzeDeps deps).potentiallyMissing = advisList 0 deps ∧
    (analyzeDeps deps).redundant = [] := by
  simp [analyzeDeps, analyzeFrom_eq, emptyAnalysis]

/-- The anonymity condition as the claim orders it (no name, literal name
`anonymous`, arrow source, nameless function source) coincides with the
source-order disjunction `isAnonymousFn`. -/
theorem claimAnon_eq (d : JSVal) :
    (fnName d == "" || fnName d == "anonymous" ||
      strIncludes (strTrim (fnToString d)) "=>" ||
      matchesNamelessFn (strTrim (fnToString d))) = isAnonymousFn d := by
  simp only [isAnonymousFn]
  cases h1 : strIncludes (strTrim (fnToString d)) "=>" <;>
    cases h2 : matchesNamelessFn (strTrim (fnToString d)) <;>
      cases h3 : fnName d == "" <;> cases h4 : fnName d == "anonymous" <;>
        simp [h1, h2, h3, h4]

/-- A list of a given predicate-satisfying elements is its own filter. -/
theorem filter_all_eq (p : JSVal → Bool) :
    ∀ l : List JSVal, (∀ x ∈ l, p x = true) → l.filter p = l := by
  intro l
  induction l with
  | nil => intro _; rfl
  | cons d rest ih =>
    intro h
    rw [List.filter_cons, if_pos (h d (by simp))]
    rw [ih fun x hx => h x (by simp [hx])]

/-- On an all-function input the advisory list has one entry per element,
the named/anonymous advisory of that element. -/
theorem advisList_get_fn :
    ∀ (l : List JSVal) (index j : Nat) (d : JSVal),
    (∀ x ∈ l, isFuncV x = true) → l[j]? = some d →
    (advisList index l)[j]? =
      some (if isAnonymousFn d then s!"Anonymous function at index {index + j}"
            else s!"Named function at index {index + j}") := by
  intro l
  induction l with
  | nil => intro index j d _ h; simp at h
  | cons x rest ih =>
    intro index j d hall h
    have hx : isFuncV x = true := hall x (by simp)
    cases j with
    | zero =>
      simp at h
      subst h
      simp [advisList, advisoryOf, hx]
    | succ j' =>
      simp only [List.getElem?_cons_succ] at h
      have hrec := ih (index + 1) j' d (fun y hy => hall y (by simp [hy])) h
      have harith : index + 1 + j' = index + (j' + 1) := by omega
      rw [harith] at hrec
      simp [advisList, advisoryOf, hx, hrec]

/-- The advisory list has exactly one entry per structured or function
element of the input. -/
theorem advisList_length :
    ∀ (l : List JSVal) (index : Nat),
    (advisList index l).length =
      (l.filter fun d => goesStructured d || isFuncV d).length := by
  intro l
  induction l with
  | nil => intro _; rfl
  | cons d rest ih =>
    intro index
    cases d <;>
      simp [advisList, advisoryOf, List.filter_cons, goesStructured, isFuncV,
        isNullV, isArrayV, typeof, ih]

/-- C4: on an all-function input every element lands in the function bucket
in order, one advisory is emitted per element, and the advisory at each index
says anonymous exactly when the function has no resolvable name, is named
the literal `anonymous`, or its source is an arrow form or a nameless
function form, and says named otherwise. -/
theorem spec_C4 (deps : List JSVal) (h : ∀ d ∈ deps, typeof d = "function") :
    (analyzeDeps deps).functions = deps ∧
    (analyzeDeps deps).potentiallyMissing.length = deps.length ∧
    ∀ (j : Nat) (d : JSVal), deps[j]? = some d →
      (analyzeDeps deps).potentiallyMissing[j]? =
        some (if fnName d == "" || fnName d == "anonymous" ||
                strIncludes (strTrim (fnToString d)) "=>" ||
                matchesNamelessFn (strTrim (fnToString d))
              then s!"Anonymous function at index {j}"
              else s!"Named function at index {j}") := by
  have hfn : ∀ d ∈ deps, isFuncV d = true := fun d hd => by
    simp [isFuncV, h d hd]
  obtain ⟨hp, ho, hf, hm, hr⟩ := analyzeDeps_eq deps
  refine ⟨?_, ?_, ?_⟩
  · rw [hf]
    exact filter_all_eq _ deps hfn
  · rw [hm, advisList_length deps 0]
    rw [filter_all_eq _ deps fun x hx => by simp [hfn x hx]]
  · intro j d hjd
    rw [hm, advisList_get_fn deps 0 j d hfn hjd]
    simp [claimAnon_eq]

/-- C4 witness: a named function expression and an arrow function both land
in the function bucket; the index-0 advisory says named, the index-1
advisory says anonymous. -/
theorem spec_C4_witness :
    (analyzeDeps [JSVal.vFunc 0 "namedFunction" "function namedFunction() \x7b\x7d",
        JSVal.vFunc 1 "anonymousFn" "() => \x7b\x7d"]).functions =
      [JSVal.vFunc 0 "namedFunction" "function namedFunction() \x7b\x7d",
       JSVal.vFunc 1 "anonymousFn" "() => \x7b\x7d"] ∧
    (analyzeDeps [JSVal.vFunc 0 "namedFunction" "function namedFunction() \x7b\x7d",
        JSVal.vFunc 1 "anonymousFn" "() => \x7b\x7d"]).potentiallyMissing[0]? =
      some "Named function at index 0" ∧
    (analyzeDeps [JSVal.vFunc 0 "namedFunction" "function namedFunction() \x7b\x7d",
        JSVal.vFunc 1 "anonymousFn" "() => \x7b\x7d"]).potentiallyMissing[1]? =
      some "Anonymous function at index 1" := by
  have h := spec_C4
    [JSVal.vFunc 0 "namedFunction" "function namedFunction() \x7b\x7d",
     JSVal.vFunc 1 "anonymousFn" "() => \x7b\x7d"] (by decide)
  refine ⟨h.1, ?_, ?_⟩
  · rw [h.2.2 0 (JSVal.vFunc 0 "namedFunction" "function namedFunction() \x7b\x7d") rfl]
    decide
  · rw [h.2.2 1 (JSVal.vFunc 1 "anonymousFn" "() => \x7b\x7d") rfl]
    decide

/-- C5: the buckets are the order-preserving filters of the input (null and
the four primitive typeofs to `primitives`, arrays and non-null objects to
`objects`), advisories are exactly the per-index `Array at index i` /
`Object at index i` / function advisories, and the two concrete spec
examples evaluate as stated. -/
theorem spec_C5 :
    (∀ deps : List JSVal,
      (analyzeDeps deps).primitives = deps.filter goesPrimitive ∧
      (analyzeDeps deps).objects = deps.filter goesStructured ∧
      (analyzeDeps deps).functions = deps.filter isFuncV ∧
      (analyzeDeps deps).potentiallyMissing = advisList 0 deps) ∧
    (analyzeDeps [JSVal.vNum 1, JSVal.vStr "s", JSVal.vBool true, JSVal.vNull,
        JSVal.vUndef]).primitives =
      [JSVal.vNum 1, JSVal.vStr "s", JSVal.vBool true, JSVal.vNull,
        JSVal.vUndef] ∧
    (analyzeDeps [JSVal.vNum 1, JSVal.vStr "s", JSVal.vBool true, JSVal.vNull,
        JSVal.vUndef]).potentiallyMissing = [] ∧
    (analyzeDeps [JSVal.vObj 1 [("a", JSVal.vNum 1)],
        JSVal.vArr 2 [JSVal.vNum 1, JSVal.vNum 2, JSVal.vNum 3]]).objects =
      [JSVal.vObj 1 [("a", JSVal.vNum 1)],
        JSVal.vArr 2 [JSVal.vNum 1, JSVal.vNum 2, JSVal.vNum 3]] ∧
    (analyzeDeps [JSVal.vObj 1 [("a", JSVal.vNum 1)],
        JSVal.vArr 2 [JSVal.vNum 1, JSVal.vNum 2, JSVal.vNum 3]]).potentiallyMissing =
      ["Object at index 0", "Array at index 1"] :=
  ⟨fun deps =>
    ⟨(analyzeDeps_eq deps).1, (analyzeDeps_eq deps).2.1,
     (analyzeDeps_eq deps).2.2.1, (analyzeDeps_eq deps).2.2.2.1⟩,
   rfl, rfl, rfl, rfl⟩

/-- Each value is counted by exactly one routing predicate, unless it is a
symbol or bigint, in which case by none. -/
theorem routing_total (d : JSVal) :
    (if goesPrimitive d = true then 1 else 0) +
      (if goesStructured d = true then 1 else 0) +
      (if isFuncV d = true then 1 else 0) =
      (if (!(typeof d == "symbol") && !(typeof d == "bigint")) = true then 1
       else 0) := by
  cases d <;> rfl

/-- The length of a conditional cons is the tail length plus the condition
bit. -/
theorem lenIfCons (c : Bool) (x : JSVal) (l : List JSVal) :
    (if c = true then x :: l else l).length = (if c = true then 1 else 0) + l.length := by
  cases c
  · simp
  · simp
    omega

/-- The three routing predicates partition the non-symbol non-bigint values:
the bucket sizes add up to the count of such elements. -/
theorem countParts (deps : List JSVal) :
    (deps.filter goesPrimitive).length + (deps.filter goesStructured).length +
      (deps.filter isFuncV).length =
      (deps.filter fun d =>
        !(typeof d == "symbol") && !(typeof d == "bigint")).length := by
  induction deps with
  | nil => rfl
  | cons d rest ih =>
    rw [List.filter_cons, List.filter_cons, List.filter_cons, List.filter_cons]
    rw [lenIfCons, lenIfCons, lenIfCons, lenIfCons]
    have hone := routing_total d
    omega

/-- A filter has full length exactly when every element satisfies the
predicate. -/
theorem filter_length_eq_iff (p : JSVal → Bool) :
    ∀ l : List JSVal, ((l.filter p).length = l.length ↔ ∀ x ∈ l, p x = true) := by
  intro l
  induction l with
  | nil => simp
  | cons d rest ih =>
    cases hd : p d <;> simp [List.filter_cons, hd, ih]
    · have hle := List.length_filter_le p rest
      omega

/-- No value satisfies two of the three routing predicates at once. -/
theorem routing_disjoint (d : JSVal) :
    ¬(goesPrimitive d = true ∧ goesStructured d = true) ∧
    ¬(goesPrimitive d = true ∧ isFuncV d = true) ∧
    ¬(goesStructured d = true ∧ isFuncV d = true) := by
  cases d <;> simp [goesPrimitive, goesStructured, isFuncV, typeof, isNullV]

/-- C10: each element lands in at most one bucket, the bucket sizes sum to
the input length exactly when no element is a symbol or bigint, symbol and
bigint elements land in no bucket, and the advisory count equals the count
of structured and function elements. -/
theorem spec_C10 (deps : List JSVal) :
    (analyzeDeps deps).primitives.length + (analyzeDeps deps).objects.length +
      (analyzeDeps deps).functions.length =
      (deps.filter fun d =>
        !(typeof d == "symbol") && !(typeof d == "bigint")).length ∧
    ((analyzeDeps deps).primitives.length + (analyzeDeps deps).objects.length +
        (analyzeDeps deps).functions.length = deps.length ↔
      ∀ d ∈ deps, typeof d ≠ "symbol" ∧ typeof d ≠ "bigint") ∧
    (∀ d : JSVal,
      ¬(d ∈ (analyzeDeps deps).primitives ∧ d ∈ (analyzeDeps deps).objects) ∧
      ¬(d ∈ (analyzeDeps deps).primitives ∧ d ∈ (analyzeDeps deps).functions) ∧
      ¬(d ∈ (analyzeDeps deps).objects ∧ d ∈ (analyzeDeps deps).functions)) ∧
    (∀ d ∈ deps, typeof d = "symbol" ∨ typeof d = "bigint" →
      d ∉ (analyzeDeps deps).primitives ∧ d ∉ (analyzeDeps deps).objects ∧
      d ∉ (analyzeDeps deps).functions) ∧
    (analyzeDeps deps).potentiallyMissing.length =
      (deps.filter fun d => goesStructured d || isFuncV d).length := by
  obtain ⟨hp, ho, hf, hm, hr⟩ := analyzeDeps_eq deps
  refine ⟨?_, ?_, ?_, ?_, ?_⟩
  · rw [hp, ho, hf]
    exact countParts deps
  · rw [hp, ho, hf, countParts deps, filter_length_eq_iff]
    constructor
    · intro hall d hd
      have h2 := hall d hd
      simp only [Bool.and_eq_true, Bool.not_eq_true', beq_eq_false_iff_ne] at h2
      exact h2
    · intro hall d hd
      have h2 := hall d hd
      simp only [Bool.and_eq_true, Bool.not_eq_true', beq_eq_false_iff_ne]
      exact h2
  · intro d
    refine ⟨?_, ?_, ?_⟩ <;> rintro ⟨h1, h2⟩
    · rw [hp] at h1; rw [ho] at h2
      exact (routing_disjoint d).1
        ⟨(List.mem_filter.mp h1).2, (List.mem_filter.mp h2).2⟩
    · rw [hp] at h1; rw [hf] at h2
      exact (routing_disjoint d).2.1
        ⟨(List.mem_filter.mp h1).2, (List.mem_filter.mp h2).2⟩
    · rw [ho] at h1; rw [hf] at h2
      exact (routing_disjoint d).2.2
        ⟨(List.mem_filter.mp h1).2, (List.mem_filter.mp h2).2⟩
  · intro d hd hsym
    have hps : goesPrimitive d = false ∧ goesStructured d = false ∧
        isFuncV d = false := by
      rcases hsym with h | h <;> cases d <;>
        simp_all [goesPrimitive, goesStructured, isFuncV, typeof, isNullV]
    refine ⟨?_, ?_, ?_⟩ <;> intro hmem
    · rw [hp] at hmem
      have h2 := (List.mem_filter.mp hmem).2
      simp [hps.1] at h2
    · rw [ho] at hmem
      have h2 := (List.mem_filter.mp hmem).2
      simp [hps.2.1] at h2
    · rw [hf] at hmem
      have h2 := (List.mem_filter.mp hmem).2
      simp [hps.2.2] at h2
  · rw [hm]
    exact advisList_length deps 0

/-- C10 witness: on the concrete input of a symbol and a number, the bucket
sizes sum to one and the symbol lands in no bucket. -/
theorem spec_C10_witness :
    (analyzeDeps [JSVal.vSym 0, JSVal.vNum 1]).primitives.length +
      (analyzeDeps [JSVal.vSym 0, JSVal.vNum 1]).objects.length +
      (analyzeDeps [JSVal.vSym 0, JSVal.vNum 1]).functions.length =
      ([JSVal.vSym 0, JSVal.vNum 1].filter fun d =>
        !(typeof d == "symbol") && !(typeof d == "bigint")).length ∧
    JSVal.vSym 0 ∉ (analyzeDeps [JSVal.vSym 0, JSVal.vNum 1]).primitives := by
  have h := spec_C10 [JSVal.vSym 0, JSVal.vNum 1]
  exact ⟨h.1, (h.2.2.2.1 (JSVal.vSym 0) (by simp) (Or.inl rfl)).1⟩

/-- Embedding of the `dependencies` field of an `EffectReport`
(`src/types.ts`). -/
structure EffectDeps where
  previous : List JSVal
  current : List JSVal
  changed : List Bool
deriving Repr

/-- Embedding of `EffectReport` from `src/types.ts`. -/
structure EffectReport where
  id : String
  triggered : Bool
  dependencies : EffectDeps
  timestamp : Nat
  renderCount : Nat
deriving Repr

/-- A JavaScript `Map` with string keys, modelled as its entry list in
insertion order; the head is the oldest-inserted entry. -/
abbrev JsMap := List (String × EffectReport)

/-- Embedding of `Map.prototype.set`: replace in place when the key exists
(preserving its insertion position), append otherwise. -/
def mapSet (m : JsMap) (k : String) (v : EffectReport) : JsMap :=
  if m.any fun p => p.1 == k then
    m.map fun p => if p.1 == k then (k, v) else p
  else m ++ [(k, v)]

/-- Embedding of `Map.prototype.delete` for a present key. -/
def mapDelete (m : JsMap) (k : String) : JsMap :=
  m.filter fun p => p.1 != k

/-- Embedding of `map.keys().next().value`: the first key in insertion
order, absent on the empty map. -/
def firstKey (m : JsMap) : Option String :=
  m.head?.map Prod.fst

/-- Embedding of `DevToolsState` from `src/types.ts`. -/
structure DevToolsState where
  effects : JsMap
  isEnabled : Bool
deriving Repr

/-- Embedding of `enableDevTools` from `src/devtools.ts`. -/
def enableDevTools (st : DevToolsState) (enabled : Bool) : DevToolsState :=
  { st with isEnabled := enabled }

/-- Embedding of the trailing bounding block of `reportToDevTools`: when the
stored count exceeds 1000 the oldest key is fetched and, in the source,
deleted only under the truthiness guard `if (oldestKey)` — which is false
both for an absent key and for the empty-string key. -/
def evictIfOver (m : JsMap) : JsMap :=
  if m.length > 1000 then
    match firstKey m with
    | some oldestKey => if oldestKey ≠ "" then mapDelete m oldestKey else m
    | none => m
  else m

/-- Embedding of `reportToDevTools` from `src/devtools.ts`: no-op when
disabled, otherwise store the report under its id and apply the bounding
block (the browser `postMessage` side channel does not touch the store and
is not modelled). -/
def reportToDevTools (st : DevToolsState) (report : EffectReport) : DevToolsState :=
  if !st.isEnabled then st
  else { st with effects := evictIfOver (mapSet st.effects report.id report) }

/-- Embedding of `clearEffectReports` from `src/devtools.ts`. -/
def clearEffectReports (st : DevToolsState) : DevToolsState :=
  { st with effects := [] }

/-- Setting a key absent from the map appends the new entry. -/
theorem mapSet_fresh (m : JsMap) (k : String) (v : EffectReport)
    (h : (m.any fun p => p.1 == k) = false) : mapSet m k v = m ++ [(k, v)] := by
  simp [mapSet, h]

/-- Appending at the back leaves the oldest key unchanged. -/
theorem firstKey_append (m : JsMap) (x : String × EffectReport) (k : String)
    (h : firstKey m = some k) : firstKey (m ++ [x]) = some k := by
  cases m with
  | nil => simp [firstKey] at h
  | cons y rest => simpa [firstKey] using h

/-- When the oldest key is the empty string the bounding block never evicts,
whatever the size. -/
theorem evictIfOver_head_empty (m : JsMap) (h : firstKey m = some "") :
    evictIfOver m = m := by
  simp [evictIfOver, h]

/-- Storing a report with a fresh id while the oldest key is the empty
string always grows the store by one entry: the insertion appends and the
eviction is skipped by the falsy-key guard. -/
theorem reportToDevTools_append (st : DevToolsState) (r : EffectReport)
    (hen : st.isEnabled = true)
    (hfresh : (st.effects.any fun p => p.1 == r.id) = false)
    (hhead : firstKey st.effects = some "") :
    reportToDevTools st r = ⟨st.effects ++ [(r.id, r)], true⟩ := by
  obtain ⟨eff, en⟩ := st
  simp only at hen hfresh hhead
  subst hen
  simp [reportToDevTools, mapSet_fresh eff r.id r hfresh,
    evictIfOver_head_empty (eff ++ [(r.id, r)]) (firstKey_append eff (r.id, r) "" hhead)]

/-- A report whose only content relevant to the store is its id. -/
def mkReport (k : String) : EffectReport := ⟨k, true, ⟨[], [], []⟩, 0, 0⟩

/-- The i-th distinct nonempty id: a run of i+1 letters `k`. -/
def kKey (i : Nat) : String := String.mk (List.replicate (i + 1) 'k')

/-- State of the devtools store after enabling it, reporting once under the
empty-string id, and then reporting n times under the distinct nonempty ids
`kKey 0`, ..., `kKey (n-1)`. -/
def floodState (n : Nat) : DevToolsState :=
  ((List.range n).map fun i => mkReport (kKey i)).foldl reportToDevTools
    (reportToDevTools ⟨[], true⟩ (mkReport ""))

/-- The generated ids are pairwise distinct and nonempty (they differ in
length). -/
theorem kKey_beq_false (i j : Nat) (h : i ≠ j) : (kKey i == kKey j) = false := by
  apply beq_eq_false_iff_ne.mpr
  intro hk
  have hlen := congrArg (fun s => s.data.length) hk
  simp [kKey] at hlen
  exact h hlen

/-- The empty string is none of the generated ids. -/
theorem kKey_empty_beq_false (i : Nat) : (("" : String) == kKey i) = false := by
  apply beq_eq_false_iff_ne.mpr
  intro hk
  have hlen := congrArg (fun s => s.data.length) hk
  simp [kKey] at hlen

/-- After the empty-id report and n fresh reports the store holds all n + 1
entries in insertion order: the empty-string entry stays oldest, so the
falsy-key guard disables eviction forever and the bound is never enforced. -/
theorem floodState_effects (n : Nat) :
    (floodState n).effects =
      ("", mkReport "") ::
        ((List.range n).map fun i => (kKey i, mkReport (kKey i))) ∧
    (floodState n).isEnabled = true := by
  induction n with
  | zero => exact ⟨rfl, rfl⟩
  | succ n ih =>
    have hbase : floodState (n + 1) =
        reportToDevTools (floodState n) (mkReport (kKey n)) := by
      unfold floodState
      rw [List.range_succ, List.map_append, List.foldl_append]
      rfl
    have hfresh : ((floodState n).effects.any fun p => p.1 == (mkReport (kKey n)).id) = false := by
      rw [ih.1]
      simp only [List.any_cons, Bool.or_eq_false_iff, mkReport]
      refine ⟨kKey_empty_beq_false n, ?_⟩
      rw [List.any_eq_false]
      intro p hp
      obtain ⟨j, hj, rfl⟩ := List.mem_map.mp hp
      have hne := kKey_beq_false j n (Nat.ne_of_lt (List.mem_range.mp hj))
      simpa using hne
    have hhead : firstKey (floodState n).effects = some "" := by
      rw [ih.1]; rfl
    rw [hbase, reportToDevTools_append (floodState n) (mkReport (kKey n)) ih.2 hfresh hhead]
    refine ⟨?_, rfl⟩
    rw [ih.1]
    simp [List.range_succ, mkReport]

/-- C8: evaluating the store at the failing call sequence — one report with
the caller-chosen id "" followed by 1001 reports with distinct nonempty ids,
all appended by `reportToDevTools` — leaves 1002 retained reports, exceeding
the documented cap of 1000, because the truthiness guard on the oldest key
skips eviction whenever the oldest key is the empty string. -/
theorem spec_C8_bug :
    (floodState 1001).effects.length = 1002 ∧
    1000 < (floodState 1001).effects.length := by
  have h := (floodState_effects 1001).1
  rw [h]
  simp
